import Mathlib

/-!
Verification development for the data-normalization and metric-aggregation
pipeline of the marketing-analytics dashboard (`utils/data_processor.py`,
class `DataProcessor`).

Modelling conventions:
* A pandas `DataFrame` is a `Table`: a row count plus an ordered list of
  named columns.  Cell values are exact rationals (`ℚ`); the Python floats
  are modelled as exact rational arithmetic.  Dates are modelled as day
  numbers stored in `ℚ`.  String-valued metadata columns (`source`,
  `processed_at`) are modelled as placeholder columns whose values are
  never read by the aggregation; only their names matter.
* Each column carries a `numeric` flag mirroring
  `select_dtypes(include=[np.number])`.
* Python's `round(x, d)` (round half to even) is `pyRound x d`; `int(x)`
  (truncation toward zero) is `ratTrunc x`.
* A connector's `fetch_data` call (together with the standardization that
  runs inside the same `try` block) is modelled as an
  `Except String (Option Table)`: `.error` is a raised exception, `.ok
  none` is a `None` return.
-/

/-- A single dataframe column: its label, its dtype class (numeric or not),
and its cell values. -/
structure Col where
  name : String
  numeric : Bool
  values : List ℚ
deriving DecidableEq, Repr

/-- A dataframe: a row count and an ordered list of columns. -/
structure Table where
  nrows : ℕ
  cols : List Col
deriving DecidableEq, Repr

/-- `df.empty`: no rows or no columns. -/
def Table.isEmpty (t : Table) : Bool :=
  t.nrows = 0 || t.cols.isEmpty

/-- `name in df.columns`. -/
def Table.hasCol (t : Table) (nm : String) : Bool :=
  t.cols.any (fun c => c.name == nm)

/-- `df[name]` as a list of values (first column with that label). -/
def Table.col (t : Table) (nm : String) : Option (List ℚ) :=
  (t.cols.find? (fun c => c.name == nm)).map Col.values

/-- Replace the first column labelled `nm` (keeping its position), or append
a new column at the end — the semantics of `df[nm] = values`. -/
def setColList (nm : String) (nc : Col) : List Col → List Col
  | [] => [nc]
  | c :: cs => if c.name == nm then nc :: cs else c :: setColList nm nc cs

/-- `df[nm] = values` on a table. -/
def Table.setCol (t : Table) (nm : String) (num : Bool) (vals : List ℚ) : Table :=
  { t with cols := setColList nm ⟨nm, num, vals⟩ t.cols }

/-- `df[name].sum()` (0 when the column is absent; NaNs are not modelled). -/
def colSum (t : Table) (nm : String) : ℚ :=
  ((t.col nm).getD []).sum

/-- Mean of a list of rationals (`series.mean()`, `np.mean`). -/
def listMean (l : List ℚ) : ℚ :=
  l.sum / (l.length : ℚ)

/-- `df[name].mean()`. -/
def colMean (t : Table) (nm : String) : ℚ :=
  listMean ((t.col nm).getD [])

/-- Does the character list `p` occur at the head of `s`? -/
def leadsWith : List Char → List Char → Bool
  | [], _ => true
  | _ :: _, [] => false
  | p :: ps, c :: cs => p == c && leadsWith ps cs

/-- Does `p` occur as a contiguous subsequence of `s`? -/
def containsSeq (p : List Char) : List Char → Bool
  | [] => p.isEmpty
  | c :: cs => leadsWith p (c :: cs) || containsSeq p cs

/-- Python's substring test `pat in s`. -/
def strContains (s pat : String) : Bool :=
  containsSeq pat.toList s.toList

/-- Python's `str.lower()` (over the character list, so that it evaluates
by kernel reduction). -/
def lowerStr (s : String) : String :=
  String.mk (s.data.map Char.toLower)

/-- Round half to even to an integer, Python's `round(q)` on the exact value. -/
def roundHalfEven (q : ℚ) : ℤ :=
  if q - (⌊q⌋ : ℚ) < 1/2 then ⌊q⌋
  else if 1/2 < q - (⌊q⌋ : ℚ) then ⌊q⌋ + 1
  else if ⌊q⌋ % 2 = 0 then ⌊q⌋ else ⌊q⌋ + 1

/-- Python's `round(q, d)` modelled over exact rationals. -/
def pyRound (q : ℚ) (d : ℕ) : ℚ :=
  (roundHalfEven (q * 10 ^ d) : ℚ) / 10 ^ d

/-- Python's `int(q)`: truncation toward zero. -/
def ratTrunc (q : ℚ) : ℤ :=
  if 0 ≤ q then ⌊q⌋ else ⌈q⌉

/-! ### Schema normalizer (`_apply_column_mapping` and the per-source
`_standardize_*` functions) -/

/-- One iteration of the `_apply_column_mapping` loop: scan the *original*
table's columns in order; the first column whose lowercased name is
(case-insensitively, exactly) one of the accepted synonyms is copied onto
the canonical field (unless it already carries that exact name). -/
def acmStep (t : Table) (acc : Table) (fm : String × List String) : Table :=
  match t.cols.find? (fun c => fm.2.any (fun s => lowerStr s == lowerStr c.name)) with
  | some c => if c.name == fm.1 then acc else acc.setCol fm.1 c.numeric c.values
  | none => acc

/-- `_apply_column_mapping`. -/
def applyColumnMapping (t : Table) (mapping : List (String × List String)) : Table :=
  mapping.foldl (acmStep t) t

/-- Synonym table of `_standardize_ads_data`. -/
def adsMapping : List (String × List String) :=
  [("spend", ["spend", "cost", "gasto"]),
   ("impressions", ["impressions", "impresiones"]),
   ("clicks", ["clicks", "clics"]),
   ("conversions", ["conversions", "conversion", "purchases"]),
   ("revenue", ["revenue", "purchase_value", "conversion_value"]),
   ("cpc", ["cpc", "avg_cpc"]),
   ("cpm", ["cpm", "avg_cpm"]),
   ("ctr", ["ctr", "click_through_rate"]),
   ("roas", ["roas", "return_on_ad_spend"])]

/-- Synonym table of `_standardize_ecommerce_data`. -/
def ecomMapping : List (String × List String) :=
  [("revenue", ["revenue", "sales", "ventas", "total_sales"]),
   ("orders", ["orders", "pedidos", "order_count"]),
   ("units_sold", ["units_sold", "quantity", "cantidad"]),
   ("customers", ["customers", "clientes", "new_customers"]),
   ("aov", ["aov", "average_order_value", "valor_promedio"])]

/-- Synonym table of `_standardize_email_data`. -/
def emailMapping : List (String × List String) :=
  [("emails_sent", ["emails_sent", "sent", "enviados"]),
   ("opens", ["opens", "emails_opened", "aperturas"]),
   ("clicks", ["clicks", "emails_clicked", "clics"]),
   ("unsubscribes", ["unsubscribes", "unsubs", "bajas"]),
   ("bounces", ["bounces", "rebotes"]),
   ("revenue", ["revenue", "email_revenue", "ingresos"])]

/-- Synonym table of `_standardize_analytics_data`. -/
def analyticsMapping : List (String × List String) :=
  [("sessions", ["sessions", "sesiones"]),
   ("users", ["users", "usuarios", "unique_users"]),
   ("pageviews", ["pageviews", "page_views", "vistas"]),
   ("bounce_rate", ["bounce_rate", "tasa_rebote"]),
   ("conversions", ["conversions", "goals", "objetivos"]),
   ("revenue", ["revenue", "ecommerce_revenue", "ingresos"])]

/-- `_standardize_ecommerce_data`: mapping plus the row-wise `aov`
backfill `aov = revenue / orders` when `aov` is absent and both operands
are present. -/
def standardizeEcommerceData (t : Table) : Table :=
  let s := applyColumnMapping t ecomMapping
  if !s.hasCol "aov" && s.hasCol "revenue" && s.hasCol "orders" then
    s.setCol "aov" true
      (List.zipWith (fun a b => a / b) ((s.col "revenue").getD []) ((s.col "orders").getD []))
  else s

/-- `_standardize_email_data`: mapping plus the row-wise `open_rate` and
`click_rate` backfills. -/
def standardizeEmailData (t : Table) : Table :=
  let s := applyColumnMapping t emailMapping
  let s2 :=
    if !s.hasCol "open_rate" && s.hasCol "opens" && s.hasCol "emails_sent" then
      s.setCol "open_rate" true
        (List.zipWith (fun a b => a / b * 100) ((s.col "opens").getD [])
          ((s.col "emails_sent").getD []))
    else s
  if !s2.hasCol "click_rate" && s2.hasCol "clicks" && s2.hasCol "emails_sent" then
    s2.setCol "click_rate" true
      (List.zipWith (fun a b => a / b * 100) ((s2.col "clicks").getD [])
        ((s2.col "emails_sent").getD []))
  else s2

/-- The pattern table of `_standardize_csv_data`. -/
def csvMetrics : List (String × List String) :=
  [("revenue", ["revenue", "sales", "ventas", "ingresos", "total"]),
   ("cost", ["cost", "spend", "gasto", "inversion"]),
   ("conversions", ["conversions", "purchases", "orders", "pedidos"]),
   ("impressions", ["impressions", "views", "vistas"]),
   ("clicks", ["clicks", "clics"])]

/-- Names of the numeric columns of a table
(`select_dtypes(include=[np.number]).columns`). -/
def numericNames (t : Table) : List String :=
  (t.cols.filter (fun c => c.numeric)).map Col.name

/-- The csv-path match test: the column's lowercased name contains one of
the patterns as a substring, and its name belongs to the numeric columns
detected up front. -/
def csvPred (nn : List String) (pats : List String) (c : Col) : Bool :=
  pats.any (fun p => strContains (lowerStr c.name) p) && nn.contains c.name

/-- One iteration of the `_standardize_csv_data` loop for one metric. -/
def csvStep (nn : List String) (acc : Table) (mp : String × List String) : Table :=
  match acc.cols.find? (csvPred nn mp.2) with
  | some c => acc.setCol mp.1 c.numeric c.values
  | none => acc

/-- `_standardize_csv_data`: for each metric, assign the first column of the
current table whose lowercased name contains one of the patterns and which
was detected as numeric at entry. -/
def standardizeCsvData (t : Table) : Table :=
  csvMetrics.foldl (csvStep (numericNames t)) t

/-- The daily date sequence `pd.date_range(end=now, periods=n, freq='D')`,
as day numbers ending at `today`. -/
def synthDates (today : ℤ) (n : ℕ) : List ℚ :=
  (List.range n).map (fun (i : ℕ) => ((today - ((n : ℤ) - 1 - (i : ℤ)) : ℤ) : ℚ))

/-- The date-handling prologue of `_standardize_data_format`: keep an exact
`date` column; otherwise convert the first column whose lowercased name
contains `date` or `fecha` (`pd.to_datetime` is the identity on our day
numbers); otherwise synthesize a daily sequence ending today. -/
def ensureDate (t : Table) (today : ℤ) : Table :=
  if t.hasCol "date" then t
  else
    match t.cols.find? (fun c =>
        strContains (lowerStr c.name) "date" || strContains (lowerStr c.name) "fecha") with
    | some c => t.setCol "date" false c.values
    | none => t.setCol "date" false (synthDates today t.nrows)

/-- The per-source-type dispatch of `_standardize_data_format`. -/
def dispatchStandardize (sourceType : String) (t1 : Table) : Table :=
  if sourceType == "meta" || sourceType == "google_ads" then
    applyColumnMapping t1 adsMapping
  else if sourceType == "shopify" || sourceType == "woocommerce" then
    standardizeEcommerceData t1
  else if sourceType == "klaviyo" || sourceType == "mailchimp" || sourceType == "mailerlite" then
    standardizeEmailData t1
  else if sourceType == "ga4" then
    applyColumnMapping t1 analyticsMapping
  else if sourceType == "csv" then
    standardizeCsvData t1
  else t1

/-- `_standardize_data_format`: date handling, per-source-type dispatch,
then the `source` and `processed_at` metadata columns (string-valued;
modelled as placeholder zero columns whose values are never read). -/
def standardizeDataFormat (t : Table) (sourceType : String) (today : ℤ) : Table :=
  let t2 := dispatchStandardize sourceType (ensureDate t today)
  (t2.setCol "source" false (List.replicate t2.nrows 0)).setCol "processed_at" false
    (List.replicate t2.nrows 0)

/-! ### Metric aggregator (`_combine_metrics` and helpers) -/

/-- The result dict of `_calculate_channel_metrics`.  A key that the code
does not set is `none`. -/
structure ChannelMetrics where
  source : String
  total_spend : Option ℚ
  avg_spend : Option ℚ
  total_revenue : Option ℚ
  avg_revenue : Option ℚ
  total_conversions : Option ℚ
  avg_conversions : Option ℚ
  total_impressions : Option ℚ
  avg_impressions : Option ℚ
  total_clicks : Option ℚ
  avg_clicks : Option ℚ
  roas : Option ℚ
  ctr : Option ℚ
  cpc : Option ℚ
  revenue_trend : Option ℚ
deriving DecidableEq, Repr

/-- Mean of the first half of the `revenue` column
(`data.iloc[:len(data)//2]['revenue'].mean()`). -/
def firstHalfMean (t : Table) : ℚ :=
  listMean (((t.col "revenue").getD []).take (t.nrows / 2))

/-- Mean of the second half of the `revenue` column
(`data.iloc[len(data)//2:]['revenue'].mean()`). -/
def secondHalfMean (t : Table) : ℚ :=
  listMean (((t.col "revenue").getD []).drop (t.nrows / 2))

/-- `_calculate_channel_metrics`. -/
def calculateChannelMetrics (t : Table) (source : String) : ChannelMetrics :=
  { source := source
    total_spend := if t.hasCol "spend" then some (colSum t "spend") else none
    avg_spend := if t.hasCol "spend" then some (pyRound (colMean t "spend") 2) else none
    total_revenue := if t.hasCol "revenue" then some (colSum t "revenue") else none
    avg_revenue := if t.hasCol "revenue" then some (pyRound (colMean t "revenue") 2) else none
    total_conversions := if t.hasCol "conversions" then some (colSum t "conversions") else none
    avg_conversions :=
      if t.hasCol "conversions" then some (pyRound (colMean t "conversions") 2) else none
    total_impressions := if t.hasCol "impressions" then some (colSum t "impressions") else none
    avg_impressions :=
      if t.hasCol "impressions" then some (pyRound (colMean t "impressions") 2) else none
    total_clicks := if t.hasCol "clicks" then some (colSum t "clicks") else none
    avg_clicks := if t.hasCol "clicks" then some (pyRound (colMean t "clicks") 2) else none
    roas :=
      if t.hasCol "spend" && t.hasCol "revenue" then
        some (if 0 < colSum t "spend" then
          pyRound (colSum t "revenue" / colSum t "spend") 2 else 0)
      else none
    ctr :=
      if t.hasCol "clicks" && t.hasCol "impressions" then
        some (if 0 < colSum t "impressions" then
          pyRound (colSum t "clicks" / colSum t "impressions" * 100) 2 else 0)
      else none
    cpc :=
      if t.hasCol "spend" && t.hasCol "clicks" then
        some (if 0 < colSum t "clicks" then
          pyRound (colSum t "spend" / colSum t "clicks") 2 else 0)
      else none
    revenue_trend :=
      if 7 < t.nrows then
        if t.hasCol "revenue" then
          some (if 0 < firstHalfMean t then
            pyRound ((secondHalfMean t - firstHalfMean t) / firstHalfMean t * 100) 1 else 0)
        else none
      else none }

/-- The `overview` dict of `_combine_metrics`. -/
structure Overview where
  total_spend : ℚ
  total_revenue : ℚ
  total_conversions : ℤ
  total_impressions : ℤ
  total_clicks : ℤ
  overall_roas : ℚ
  overall_ctr : ℚ
  overall_conversion_rate : ℚ
deriving DecidableEq, Repr

/-- The running total of one base metric across all processed sources:
empty tables are skipped, absent columns contribute nothing. -/
def totalMetric (ps : List (String × Table)) (m : String) : ℚ :=
  ps.foldl (fun acc p =>
    if !p.2.isEmpty && p.2.hasCol m then acc + colSum p.2 m else acc) 0

/-- The `overview` block of `_combine_metrics`: money totals rounded to 2
decimals, count totals truncated via `int()`, ratios computed from the
un-rounded sums, guarded by `denominator > 0`, then rounded to 2 decimals. -/
def overviewOf (ps : List (String × Table)) : Overview :=
  { total_spend := pyRound (totalMetric ps "spend") 2
    total_revenue := pyRound (totalMetric ps "revenue") 2
    total_conversions := ratTrunc (totalMetric ps "conversions")
    total_impressions := ratTrunc (totalMetric ps "impressions")
    total_clicks := ratTrunc (totalMetric ps "clicks")
    overall_roas :=
      if 0 < totalMetric ps "spend" then
        pyRound (totalMetric ps "revenue" / totalMetric ps "spend") 2
      else 0
    overall_ctr :=
      if 0 < totalMetric ps "impressions" then
        pyRound (totalMetric ps "clicks" / totalMetric ps "impressions" * 100) 2
      else 0
    overall_conversion_rate :=
      if 0 < totalMetric ps "clicks" then
        pyRound (totalMetric ps "conversions" / totalMetric ps "clicks" * 100) 2
      else 0 }

/-! ### Trends (`_calculate_trends`) -/

/-- One `trends[f'{metric}_trend']` entry. -/
structure TrendInfo where
  percentage : ℚ
  direction : String
  recent_avg : ℚ
  previous_avg : ℚ
deriving DecidableEq, Repr

/-- Insert into an ascending list of dates, dropping duplicates (model of
the sorted distinct group keys of `groupby('date')`). -/
def insertAsc (x : ℚ) : List ℚ → List ℚ
  | [] => [x]
  | y :: ys => if x < y then x :: y :: ys else if x == y then y :: ys else y :: insertAsc x ys

/-- Sorted distinct dates of a list. -/
def sortDedup (l : List ℚ) : List ℚ :=
  l.foldl (fun acc x => insertAsc x acc) []

/-- The sources `_calculate_trends` keeps: non-empty tables with a `date`
column. -/
def includedForTrends (ps : List (String × Table)) : List (String × Table) :=
  ps.filter (fun p => !p.2.isEmpty && p.2.hasCol "date")

/-- Sorted distinct dates across all included sources (the index of
`daily_totals`). -/
def trendDates (ps : List (String × Table)) : List ℚ :=
  sortDedup ((includedForTrends ps).foldl (fun acc p => acc ++ (p.2.col "date").getD []) [])

/-- Does some included source carry the metric (is the metric a column of
`daily_totals`)? -/
def metricPresent (ps : List (String × Table)) (m : String) : Bool :=
  (includedForTrends ps).any (fun p => p.2.hasCol m)

/-- Sum of a source's metric over the rows with the given date. -/
def sumAtDate (t : Table) (m : String) (d : ℚ) : ℚ :=
  match t.col "date", t.col m with
  | some ds, some vs =>
      (ds.zip vs).foldl (fun a x => if x.1 == d then a + x.2 else a) 0
  | _, _ => 0

/-- The `daily_totals` series for one metric: for each distinct date, the
sum across all included sources carrying the metric (a source without the
column contributes nothing — its concatenated cells are NaN and are skipped
by the grouped sum). -/
def dailyValues (ps : List (String × Table)) (m : String) : List ℚ :=
  (trendDates ps).map (fun d =>
    (includedForTrends ps).foldl (fun a p =>
      if p.2.hasCol m then a + sumAtDate p.2 m d else a) 0)

/-- `values[-7:].mean()`. -/
def recentMean (ps : List (String × Table)) (m : String) : ℚ :=
  let vals := dailyValues ps m
  listMean (vals.drop (vals.length - 7))

/-- `values[-14:-7].mean() if len(values) >= 14 else values[:-7].mean()`. -/
def prevMean (ps : List (String × Table)) (m : String) : ℚ :=
  let vals := dailyValues ps m
  if 14 ≤ vals.length then listMean ((vals.drop (vals.length - 14)).take 7)
  else listMean (vals.take (vals.length - 7))

/-- The week-over-week trend entry for one metric, exactly as
`_calculate_trends` builds it: only when more than one day, the metric is a
column of the daily totals, more than 7 data days exist, and the
previous-period mean is strictly positive. -/
def trendFor (ps : List (String × Table)) (m : String) : Option TrendInfo :=
  if 1 < (trendDates ps).length ∧ metricPresent ps m ∧ 7 < (dailyValues ps m).length then
    if 0 < prevMean ps m then
      some { percentage := pyRound ((recentMean ps m - prevMean ps m) / prevMean ps m * 100) 1
             direction :=
               if 0 < (recentMean ps m - prevMean ps m) / prevMean ps m * 100 then "up"
               else "down"
             recent_avg := pyRound (recentMean ps m) 2
             previous_avg := pyRound (prevMean ps m) 2 }
    else none
  else none

/-- The `trends` dict of `_combine_metrics`. -/
structure Trends where
  spend_trend : Option TrendInfo
  revenue_trend : Option TrendInfo
  conversions_trend : Option TrendInfo
  daily_data : Table
deriving DecidableEq, Repr

/-- `_calculate_trends`. -/
def calculateTrends (ps : List (String × Table)) : Trends :=
  { spend_trend := trendFor ps "spend"
    revenue_trend := trendFor ps "revenue"
    conversions_trend := trendFor ps "conversions"
    daily_data :=
      { nrows := (trendDates ps).length
        cols := ⟨"date", false, trendDates ps⟩ ::
          (["spend", "revenue", "conversions", "clicks", "impressions"].filterMap fun m =>
            if metricPresent ps m then some ⟨m, true, dailyValues ps m⟩ else none) } }

/-! ### Performance / channel ranking (`_calculate_performance_metrics`) -/

/-- One entry of `channel_performance`. -/
structure PerfEntry where
  channel : String
  roas : ℚ
  spend : ℚ
  revenue : ℚ
  ctr : ℚ
  cpc : ℚ
  spend_percentage : Option ℚ
deriving DecidableEq, Repr

/-- The channel-performance dict built from one source's channel metrics
(`channel_metrics.get(key, 0)`). -/
def perfEntryOf (s : String) (t : Table) : PerfEntry :=
  let cm := calculateChannelMetrics t s
  { channel := s
    roas := cm.roas.getD 0
    spend := cm.total_spend.getD 0
    revenue := cm.total_revenue.getD 0
    ctr := cm.ctr.getD 0
    cpc := cm.cpc.getD 0
    spend_percentage := none }

/-- The unsorted `channel_performance` list (non-empty sources only). -/
def perfBase (ps : List (String × Table)) : List PerfEntry :=
  ps.filterMap (fun p => if p.2.isEmpty then none else some (perfEntryOf p.1 p.2))

/-- Stable insertion into a list sorted descending by `roas`. -/
def insertDesc (x : PerfEntry) : List PerfEntry → List PerfEntry
  | [] => [x]
  | y :: ys => if y.roas ≤ x.roas then x :: y :: ys else y :: insertDesc x ys

/-- Stable sort descending by `roas`
(`sort(key=lambda x: x['roas'], reverse=True)`). -/
def sortByRoasDesc : List PerfEntry → List PerfEntry
  | [] => []
  | x :: xs => insertDesc x (sortByRoasDesc xs)

/-- The `performance` dict of `_combine_metrics`. -/
structure Performance where
  channel_ranking : List PerfEntry
  best_channel : Option PerfEntry
  worst_channel : Option PerfEntry
deriving DecidableEq, Repr

/-- The sorted `channel_performance`
(`sort(key=lambda x: x['roas'], reverse=True)`). -/
def rankedOf (ps : List (String × Table)) : List PerfEntry :=
  sortByRoasDesc (perfBase ps)

/-- `total_spend = sum(ch['spend'] for ch in channel_performance)`. -/
def totalSpendOf (ps : List (String × Table)) : ℚ :=
  ((rankedOf ps).map (fun e => e.spend)).sum

/-- `channel['spend_percentage'] = round((channel['spend'] / total_spend) * 100, 1)`
applied to one entry. -/
def withPct (total : ℚ) (e : PerfEntry) : PerfEntry :=
  { e with spend_percentage := some (pyRound (e.spend / total * 100) 1) }

/-- The spend-distribution pass: only when the total spend is strictly
positive does each channel dict get a `spend_percentage` key. -/
def annotateRanking (ps : List (String × Table)) : List PerfEntry :=
  if 0 < totalSpendOf ps then (rankedOf ps).map (withPct (totalSpendOf ps))
  else rankedOf ps

/-- `_calculate_performance_metrics`: rank channels by descending ROAS;
when the total spend is strictly positive annotate every entry with its
`spend_percentage`; on an empty channel list the dict stays empty.  The
best/worst references alias the (possibly annotated) ranking entries. -/
def performanceOf (ps : List (String × Table)) : Performance :=
  if (perfBase ps).isEmpty then
    { channel_ranking := [], best_channel := none, worst_channel := none }
  else
    { channel_ranking := annotateRanking ps
      best_channel := (annotateRanking ps).head?
      worst_channel :=
        if 1 < (annotateRanking ps).length then (annotateRanking ps).getLast? else none }

/-- The full result of `_combine_metrics`. -/
structure Combined where
  overview : Overview
  channels : List (String × ChannelMetrics)
  trends : Trends
  performance : Performance
deriving DecidableEq, Repr

/-- `_combine_metrics`. -/
def combineMetrics (ps : List (String × Table)) : Combined :=
  { overview := overviewOf ps
    channels := (ps.filter (fun p => !p.2.isEmpty)).map
      (fun p => (p.1, calculateChannelMetrics p.2 p.1))
    trends := calculateTrends ps
    performance := performanceOf ps }

/-! ### The per-source fetch loop (`process_multi_source_data`) -/

/-- A source connector: its connection flag and the outcome of
`fetch_data` (plus the standardization that runs in the same `try`):
`.error` models a raised exception, `.ok none` a `None` return. -/
structure Connector where
  connected : Bool
  fetch : Except String (Option Table)

/-- One iteration of the fetch loop: state is (processed tables, warnings). -/
def pmStep (today : ℤ) (st : List (String × Table) × List String)
    (p : String × Connector) : List (String × Table) × List String :=
  if p.2.connected then
    match p.2.fetch with
    | .error e => (st.1, st.2 ++ ["Error al procesar datos de " ++ p.1 ++ ": " ++ e])
    | .ok none => st
    | .ok (some raw) =>
        if raw.isEmpty then st
        else (st.1 ++ [(p.1, standardizeDataFormat raw p.1 today)], st.2)
  else st

/-- The warning-free projection of one fetch-loop iteration. -/
def pmStepD (today : ℤ) (d : List (String × Table)) (p : String × Connector) :
    List (String × Table) :=
  if p.2.connected then
    match p.2.fetch with
    | .error _ => d
    | .ok none => d
    | .ok (some raw) =>
        if raw.isEmpty then d else d ++ [(p.1, standardizeDataFormat raw p.1 today)]
  else d

/-- The fetch loop of `process_multi_source_data`: per-source isolation,
warnings collected, healthy sources standardized in registry order. -/
def processMultiSource (cs : List (String × Connector)) (today : ℤ) :
    List (String × Table) × List String :=
  cs.foldl (pmStep today) ([], [])

/-- The processed-data dict handed to `_combine_metrics`. -/
def processedOf (cs : List (String × Connector)) (today : ℤ) : List (String × Table) :=
  (processMultiSource cs today).1

/-! ### Spec-side characterizations used to state the mapping claims -/

/-- Characterization, following the spec's words, of the exact-match
column-mapping result for one canonical field: the first column (in table
order) whose lowercased name equals one of the lowercased synonyms
supplies the values; when no column matches, the field column is left
untouched. -/
def specFirstMatchExact (t : Table) (f : String) (syns : List String) : Option (List ℚ) :=
  match t.cols.find? (fun c => syns.any (fun s => lowerStr s == lowerStr c.name)) with
  | some c => some c.values
  | none => t.col f

/-- Characterization of the csv-path mapping result for one metric: the
first column whose lowercased name contains one of the patterns as a
substring *and* that was detected as numeric supplies the values; when no
such column exists, the metric column is left untouched. -/
def csvLookup (t : Table) (f : String) (pats : List String) : Option (List ℚ) :=
  match t.cols.find? (csvPred (numericNames t) pats) with
  | some c => some c.values
  | none => t.col f

/-! ### Concrete tables and connectors used as witnesses and
counterexamples -/

/-- Spec scenario channel A: one day, spend 100, revenue 400. -/
def exChanA : Table := ⟨1, [⟨"spend", true, [100]⟩, ⟨"revenue", true, [400]⟩]⟩

/-- Spec scenario channel B: one day, spend 50, revenue 50. -/
def exChanB : Table := ⟨1, [⟨"spend", true, [50]⟩, ⟨"revenue", true, [50]⟩]⟩

/-- A single channel whose only spend is 0 (total spend across channels
is 0). -/
def exZeroSpend : Table := ⟨1, [⟨"spend", true, [0]⟩]⟩

/-- A table with a `spend` column but no `revenue` column. -/
def exSpendOnly : Table := ⟨2, [⟨"spend", true, [3, 4]⟩]⟩

/-- 14 days of revenue `[10]*7 ++ [20]*7` (no date column needed for the
per-channel trend). -/
def exRev14 : Table :=
  ⟨14, [⟨"revenue", true, List.replicate 7 10 ++ List.replicate 7 20⟩]⟩

/-- 8 dated days of revenue whose first (previous-period) day is 0. -/
def exTrendZero : Table :=
  ⟨8, [⟨"date", false, [1, 2, 3, 4, 5, 6, 7, 8]⟩,
       ⟨"revenue", true, [0, 5, 5, 5, 5, 5, 5, 5]⟩]⟩

/-- 14 dated days of revenue `[10]*7 ++ [20]*7`. -/
def exTrend14 : Table :=
  ⟨14, [⟨"date", false, [1, 2, 3, 4, 5, 6, 7, 8, 9, 10, 11, 12, 13, 14]⟩,
        ⟨"revenue", true, List.replicate 7 10 ++ List.replicate 7 20⟩]⟩

/-- A csv upload whose first pattern-matching column (`total_note`,
containing the pattern `total`) is not numeric, followed by a numeric
matching column (`sales`). -/
def exCsvSkip : Table := ⟨1, [⟨"total_note", false, [1]⟩, ⟨"sales", true, [5]⟩]⟩

/-- An ads table whose only column is `Cost` (a case-insensitive synonym
of `spend`). -/
def exAdsCost : Table := ⟨1, [⟨"Cost", true, [7]⟩]⟩

/-- A table with no date-like column at all. -/
def exNoDate : Table := ⟨2, [⟨"sales", true, [1, 2]⟩]⟩

/-- An e-commerce table with `sales` (synonym of `revenue`) and `orders`. -/
def exEcom : Table := ⟨2, [⟨"sales", true, [10, 20]⟩, ⟨"orders", true, [2, 4]⟩]⟩

/-- A healthy connector returning a small dated spend table. -/
def exConnGood : Connector :=
  ⟨true, .ok (some ⟨2, [⟨"date", false, [1, 2]⟩, ⟨"spend", true, [1, 2]⟩]⟩)⟩

/-- A connected connector whose fetch raises. -/
def exConnBad : Connector := ⟨true, .error "boom"⟩

/-- A processed-data dict in which all three overview denominators
(spend, impressions, clicks) sum to 0. -/
def exZeroDenoms : List (String × Table) :=
  [("a", ⟨2, [⟨"spend", true, [0, 0]⟩, ⟨"impressions", true, [0, 0]⟩,
              ⟨"clicks", true, [0, 0]⟩, ⟨"conversions", true, [3, 4]⟩,
              ⟨"revenue", true, [5, 6]⟩]⟩)]

/-- A processed-data dict whose spend total is `1/200` (so rounding to two
decimals moves it). -/
def exHalfCent : List (String × Table) :=
  [("a", ⟨1, [⟨"spend", true, [1/200]⟩]⟩)]

/-- A processed-data dict with positive spend, impressions and clicks. -/
def exPositive : List (String × Table) :=
  [("a", ⟨1, [⟨"spend", true, [4]⟩, ⟨"revenue", true, [10]⟩,
              ⟨"impressions", true, [8]⟩, ⟨"clicks", true, [5]⟩,
              ⟨"conversions", true, [2]⟩]⟩)]

/-! ## Lemmas -/

/-! ### Rounding -/

theorem abs_roundHalfEven_sub (q : ℚ) : |((roundHalfEven q : ℤ) : ℚ) - q| ≤ 1 / 2 := by
  have h0 : (⌊q⌋ : ℚ) ≤ q := Int.floor_le q
  have h1 : q < (⌊q⌋ : ℚ) + 1 := Int.lt_floor_add_one q
  unfold roundHalfEven
  split_ifs with hc1 hc2 hc3 <;> push_cast <;> rw [abs_le] <;> constructor <;> linarith

theorem abs_pyRound_sub (q : ℚ) (d : ℕ) : |pyRound q d - q| ≤ 1 / (2 * 10 ^ d) := by
  have hpow : (0 : ℚ) < 10 ^ d := by positivity
  have h : pyRound q d - q = (((roundHalfEven (q * 10 ^ d) : ℤ) : ℚ) - q * 10 ^ d) / 10 ^ d := by
    unfold pyRound
    field_simp
    ring
  rw [h, abs_div, abs_of_pos hpow, div_le_div_iff₀ hpow (by positivity)]
  have := abs_roundHalfEven_sub (q * 10 ^ d)
  calc |((roundHalfEven (q * 10 ^ d) : ℤ) : ℚ) - q * 10 ^ d| * (2 * 10 ^ d)
      ≤ (1 / 2) * (2 * 10 ^ d) := by
        apply mul_le_mul_of_nonneg_right this (by positivity)
    _ = 1 * 10 ^ d := by ring

theorem abs_pyRound_one_sub (q : ℚ) : |pyRound q 1 - q| ≤ 1 / 20 := by
  have := abs_pyRound_sub q 1
  norm_num at this ⊢
  linarith

theorem abs_pyRound_two_sub (q : ℚ) : |pyRound q 2 - q| ≤ 1 / 200 := by
  have := abs_pyRound_sub q 2
  norm_num at this ⊢
  linarith

theorem abs_sum_map_pyRound_one (l : List ℚ) :
    |(l.map (fun x => pyRound x 1)).sum - l.sum| ≤ (l.length : ℚ) * (1 / 20) := by
  induction l with
  | nil => simp
  | cons x xs ih =>
    simp only [List.map_cons, List.sum_cons, List.length_cons]
    have hx := abs_pyRound_one_sub x
    have hsplit : pyRound x 1 + (xs.map (fun x => pyRound x 1)).sum - (x + xs.sum) =
        (pyRound x 1 - x) + ((xs.map (fun x => pyRound x 1)).sum - xs.sum) := by ring
    rw [hsplit]
    calc |(pyRound x 1 - x) + ((xs.map (fun x => pyRound x 1)).sum - xs.sum)|
        ≤ |pyRound x 1 - x| + |(xs.map (fun x => pyRound x 1)).sum - xs.sum| := abs_add _ _
      _ ≤ 1 / 20 + (xs.length : ℚ) * (1 / 20) := add_le_add hx ih
      _ = ((xs.length : ℚ) + 1) * (1 / 20) := by ring
      _ = (((xs.length : ℕ) + 1 : ℕ) : ℚ) * (1 / 20) := by push_cast; ring

/-! ### Column assignment and lookup -/

theorem find?_setColList_of_name_false (p : Col → Bool) (nm : String) (nc : Col)
    (hnm : nc.name = nm) (hp : ∀ c : Col, c.name = nm → p c = false) :
    ∀ l : List Col, (setColList nm nc l).find? p = l.find? p := by
  intro l
  induction l with
  | nil =>
    simp [setColList, List.find?, hp nc hnm]
  | cons c cs ih =>
    simp only [setColList]
    by_cases hc : c.name = nm
    · rw [if_pos (show (c.name == nm) = true by simp [hc])]
      rw [List.find?_cons_of_neg _ (by simp [hp nc hnm]),
        List.find?_cons_of_neg _ (by simp [hp c hc])]
    · rw [if_neg (show ¬(c.name == nm) = true by simpa using hc)]
      by_cases hpc : p c = true
      · rw [List.find?_cons_of_pos _ hpc, List.find?_cons_of_pos _ hpc]
      · rw [List.find?_cons_of_neg _ (by simpa using hpc),
          List.find?_cons_of_neg _ (by simpa using hpc), ih]

theorem col_setCol_self (t : Table) (nm : String) (num : Bool) (vals : List ℚ) :
    (t.setCol nm num vals).col nm = some vals := by
  show ((setColList nm ⟨nm, num, vals⟩ t.cols).find? (fun c => c.name == nm)).map Col.values =
    some vals
  induction t.cols with
  | nil => simp [setColList, List.find?]
  | cons c cs ih =>
    simp only [setColList]
    by_cases hc : c.name = nm
    · rw [if_pos (show (c.name == nm) = true by simp [hc])]
      simp [List.find?]
    · rw [if_neg (show ¬(c.name == nm) = true by simpa using hc)]
      rw [List.find?_cons_of_neg _ (by simpa using hc)]
      exact ih

theorem col_setCol_ne (t : Table) (nm : String) (num : Bool) (vals : List ℚ) (f : String)
    (h : f ≠ nm) : (t.setCol nm num vals).col f = t.col f := by
  show ((setColList nm ⟨nm, num, vals⟩ t.cols).find? (fun c => c.name == f)).map Col.values =
    (t.cols.find? (fun c => c.name == f)).map Col.values
  rw [find?_setColList_of_name_false (fun c => c.name == f) nm ⟨nm, num, vals⟩ rfl
    (fun c hc => by simp [hc, Ne.symm h])]

theorem nrows_setCol (t : Table) (nm : String) (num : Bool) (vals : List ℚ) :
    (t.setCol nm num vals).nrows = t.nrows := rfl

theorem find?_name_of_mem_nodup (l : List Col) (c : Col) (hc : c ∈ l)
    (hn : (l.map Col.name).Nodup) : l.find? (fun x => x.name == c.name) = some c := by
  induction l with
  | nil => cases hc
  | cons d ds ih =>
    rcases List.mem_cons.mp hc with hdc | hcds
    · subst hdc
      rw [List.find?_cons_of_pos _ (by simp)]
    · have hdn : d.name ∉ ds.map Col.name := (List.nodup_cons.mp hn).1
      have hne : d.name ≠ c.name := by
        intro he
        exact hdn (he ▸ List.mem_map_of_mem Col.name hcds)
      rw [List.find?_cons_of_neg _ (by simpa using hne)]
      exact ih hcds (List.nodup_cons.mp hn).2

/-! ### Exact-match column mapping -/

theorem acmStep_col_ne (t acc : Table) (fm : String × List String) (f : String)
    (h : fm.1 ≠ f) : (acmStep t acc fm).col f = acc.col f := by
  unfold acmStep
  cases t.cols.find? (fun c => fm.2.any (fun s => lowerStr s == lowerStr c.name)) with
  | none => rfl
  | some c =>
    show (if (c.name == fm.1) = true then acc else acc.setCol fm.1 c.numeric c.values).col f =
      acc.col f
    by_cases hc : (c.name == fm.1) = true
    · rw [if_pos hc]
    · rw [if_neg hc]
      exact col_setCol_ne acc fm.1 c.numeric c.values f (Ne.symm h)

theorem acmFold_col_not_mem (t : Table) :
    ∀ (m : List (String × List String)) (acc : Table) (f : String),
      (∀ fm ∈ m, fm.1 ≠ f) → (m.foldl (acmStep t) acc).col f = acc.col f := by
  intro m
  induction m with
  | nil => intro acc f _; rfl
  | cons fm rest ih =>
    intro acc f h
    rw [List.foldl_cons, ih (acmStep t acc fm) f (fun x hx => h x (List.mem_cons_of_mem fm hx)),
      acmStep_col_ne t acc fm f (h fm (List.mem_cons_self fm rest))]

theorem acmFold_col_eq (t : Table) :
    ∀ (m : List (String × List String)) (acc : Table) (f : String) (syns : List String),
      (f, syns) ∈ m → (m.map Prod.fst).Nodup → (t.cols.map Col.name).Nodup →
      acc.col f = t.col f →
      (m.foldl (acmStep t) acc).col f = specFirstMatchExact t f syns := by
  intro m
  induction m with
  | nil => intro acc f syns hmem; cases hmem
  | cons fm rest ih =>
    intro acc f syns hmem hnodup hnames hacc
    have hhead : fm.1 ∉ rest.map Prod.fst := (List.nodup_cons.mp hnodup).1
    have htail : (rest.map Prod.fst).Nodup := (List.nodup_cons.mp hnodup).2
    rw [List.foldl_cons]
    rcases List.mem_cons.mp hmem with heq | hmemr
    · -- the head entry is the one for field `f`
      have hf : fm.1 = f := by rw [← heq]
      have hs : fm.2 = syns := by rw [← heq]
      have hnr : ∀ x ∈ rest, x.1 ≠ f := by
        intro x hx he
        exact hhead (hf ▸ he ▸ List.mem_map_of_mem Prod.fst hx)
      rw [acmFold_col_not_mem t rest (acmStep t acc fm) f hnr]
      unfold acmStep specFirstMatchExact
      rw [hs]
      cases hfind : t.cols.find? (fun c => syns.any (fun s => lowerStr s == lowerStr c.name)) with
      | none => exact hacc
      | some c =>
        show (if (c.name == fm.1) = true then acc else acc.setCol fm.1 c.numeric c.values).col f =
          some c.values
        by_cases hc : (c.name == fm.1) = true
        · rw [if_pos hc]
          have hcn : c.name = f := by
            have h1 : c.name = fm.1 := by simpa using hc
            rw [h1, hf]
          have hcmem : c ∈ t.cols := List.mem_of_find?_eq_some hfind
          have : t.col f = some c.values := by
            show (t.cols.find? (fun x => x.name == f)).map Col.values = some c.values
            rw [← hcn, find?_name_of_mem_nodup t.cols c hcmem hnames]
            rfl
          rw [hacc, this]
        · rw [if_neg hc, hf]
          exact col_setCol_self acc f c.numeric c.values
    · -- the entry for `f` is further down; the head step leaves column f alone
      have hne : fm.1 ≠ f := by
        intro he
        exact hhead (he ▸ List.mem_map_of_mem Prod.fst hmemr)
      exact ih (acmStep t acc fm) f syns hmemr htail hnames
        ((acmStep_col_ne t acc fm f hne).trans hacc)

theorem applyColumnMapping_col (t : Table) (m : List (String × List String)) (f : String)
    (syns : List String) (hmem : (f, syns) ∈ m) (hnodup : (m.map Prod.fst).Nodup)
    (hnames : (t.cols.map Col.name).Nodup) :
    (applyColumnMapping t m).col f = specFirstMatchExact t f syns :=
  acmFold_col_eq t m t f syns hmem hnodup hnames rfl

/-! ### Csv-path column mapping -/

theorem csvStep_col_ne (nn : List String) (acc : Table) (mp : String × List String)
    (f : String) (h : mp.1 ≠ f) : (csvStep nn acc mp).col f = acc.col f := by
  unfold csvStep
  cases acc.cols.find? (csvPred nn mp.2) with
  | none => rfl
  | some c =>
    show (acc.setCol mp.1 c.numeric c.values).col f = acc.col f
    exact col_setCol_ne acc mp.1 c.numeric c.values f (Ne.symm h)

theorem csvStep_find_eq (nn : List String) (acc : Table) (mp : String × List String)
    (pats : List String) (hk : ∀ c : Col, c.name = mp.1 → csvPred nn pats c = false) :
    (csvStep nn acc mp).cols.find? (csvPred nn pats) = acc.cols.find? (csvPred nn pats) := by
  unfold csvStep
  cases acc.cols.find? (csvPred nn mp.2) with
  | none => rfl
  | some c =>
    show (setColList mp.1 ⟨mp.1, c.numeric, c.values⟩ acc.cols).find? (csvPred nn pats) =
      acc.cols.find? (csvPred nn pats)
    exact find?_setColList_of_name_false (csvPred nn pats) mp.1 ⟨mp.1, c.numeric, c.values⟩
      rfl hk acc.cols

theorem csvFold_col_not_mem (nn : List String) :
    ∀ (ms : List (String × List String)) (acc : Table) (f : String),
      (∀ mp ∈ ms, mp.1 ≠ f) → (ms.foldl (csvStep nn) acc).col f = acc.col f := by
  intro ms
  induction ms with
  | nil => intro acc f _; rfl
  | cons mp rest ih =>
    intro acc f h
    rw [List.foldl_cons, ih (csvStep nn acc mp) f (fun x hx => h x (List.mem_cons_of_mem mp hx)),
      csvStep_col_ne nn acc mp f (h mp (List.mem_cons_self mp rest))]

theorem csvFold_col_eq (nn : List String) :
    ∀ (ms : List (String × List String)) (acc : Table) (f : String) (pats : List String),
      (f, pats) ∈ ms → (ms.map Prod.fst).Nodup →
      (∀ mp ∈ ms, mp.1 ≠ f → ∀ c : Col, c.name = mp.1 → csvPred nn pats c = false) →
      (ms.foldl (csvStep nn) acc).col f =
        (match acc.cols.find? (csvPred nn pats) with
         | some c => some c.values
         | none => acc.col f) := by
  intro ms
  induction ms with
  | nil => intro acc f pats hmem; cases hmem
  | cons mp rest ih =>
    intro acc f pats hmem hnodup hother
    have hhead : mp.1 ∉ rest.map Prod.fst := (List.nodup_cons.mp hnodup).1
    have htail : (rest.map Prod.fst).Nodup := (List.nodup_cons.mp hnodup).2
    rw [List.foldl_cons]
    rcases List.mem_cons.mp hmem with heq | hmemr
    · have hf : mp.1 = f := by rw [← heq]
      have hp : mp.2 = pats := by rw [← heq]
      have hnr : ∀ x ∈ rest, x.1 ≠ f := by
        intro x hx he
        exact hhead (hf ▸ he ▸ List.mem_map_of_mem Prod.fst hx)
      rw [csvFold_col_not_mem nn rest (csvStep nn acc mp) f hnr]
      unfold csvStep
      rw [hp]
      cases hfind : acc.cols.find? (csvPred nn pats) with
      | none => rfl
      | some c =>
        show (acc.setCol mp.1 c.numeric c.values).col f = some c.values
        rw [hf]
        exact col_setCol_self acc f c.numeric c.values
    · have hne : mp.1 ≠ f := by
        intro he
        exact hhead (he ▸ List.mem_map_of_mem Prod.fst hmemr)
      have hk : ∀ c : Col, c.name = mp.1 → csvPred nn pats c = false :=
        hother mp (List.mem_cons_self mp rest) hne
      rw [ih (csvStep nn acc mp) f pats hmemr htail
        (fun x hx hxf => hother x (List.mem_cons_of_mem mp hx) hxf),
        csvStep_find_eq nn acc mp pats hk, csvStep_col_ne nn acc mp f hne]

/-! ### Ranking sort -/

theorem head?_insertDesc (x : PerfEntry) (l : List PerfEntry) :
    (insertDesc x l).head? = some x ∨ (insertDesc x l).head? = l.head? := by
  cases l with
  | nil => exact Or.inl rfl
  | cons y ys =>
    unfold insertDesc
    by_cases h : y.roas ≤ x.roas
    · rw [if_pos h]; exact Or.inl rfl
    · rw [if_neg h]; exact Or.inr rfl

theorem chain'_insertDesc (x : PerfEntry) :
    ∀ l : List PerfEntry, List.Chain' (fun a b => b.roas ≤ a.roas) l →
      List.Chain' (fun a b => b.roas ≤ a.roas) (insertDesc x l) := by
  intro l
  induction l with
  | nil => intro _; simp [insertDesc]
  | cons y ys ih =>
    intro h
    unfold insertDesc
    by_cases hxy : y.roas ≤ x.roas
    · rw [if_pos hxy]
      exact List.chain'_cons.mpr ⟨hxy, h⟩
    · rw [if_neg hxy]
      have hins := ih h.tail
      refine List.chain'_cons'.mpr ⟨?_, hins⟩
      intro z hz
      rcases head?_insertDesc x ys with hh | hh
      · rw [hh] at hz
        cases hz
        exact le_of_lt (lt_of_not_le hxy)
      · rw [hh] at hz
        exact (List.chain'_cons'.mp h).1 z hz

theorem chain'_sortByRoasDesc (l : List PerfEntry) :
    List.Chain' (fun a b => b.roas ≤ a.roas) (sortByRoasDesc l) := by
  induction l with
  | nil => simp [sortByRoasDesc]
  | cons x xs ih => exact chain'_insertDesc x (sortByRoasDesc xs) ih

theorem mem_insertDesc (z x : PerfEntry) :
    ∀ l : List PerfEntry, z ∈ insertDesc x l → z = x ∨ z ∈ l := by
  intro l
  induction l with
  | nil => intro h; simpa [insertDesc] using h
  | cons y ys ih =>
    intro h
    unfold insertDesc at h
    by_cases hxy : y.roas ≤ x.roas
    · rw [if_pos hxy] at h
      rcases List.mem_cons.mp h with h1 | h2
      · exact Or.inl h1
      · exact Or.inr h2
    · rw [if_neg hxy] at h
      rcases List.mem_cons.mp h with h1 | h2
      · exact Or.inr (h1 ▸ List.mem_cons_self y ys)
      · rcases ih h2 with h3 | h4
        · exact Or.inl h3
        · exact Or.inr (List.mem_cons_of_mem y h4)

theorem mem_sortByRoasDesc (z : PerfEntry) :
    ∀ l : List PerfEntry, z ∈ sortByRoasDesc l → z ∈ l := by
  intro l
  induction l with
  | nil => intro h; simp [sortByRoasDesc] at h
  | cons x xs ih =>
    intro h
    rcases mem_insertDesc z x (sortByRoasDesc xs) h with h1 | h2
    · exact h1 ▸ List.mem_cons_self x xs
    · exact List.mem_cons_of_mem x (ih h2)

/-! ### Fetch loop -/

theorem pmStep_fst (today : ℤ) (st : List (String × Table) × List String)
    (p : String × Connector) : (pmStep today st p).1 = pmStepD today st.1 p := by
  unfold pmStep pmStepD
  by_cases hc : p.2.connected = true
  · rw [if_pos hc, if_pos hc]
    cases hf : p.2.fetch with
    | error e => rfl
    | ok o =>
      cases o with
      | none => rfl
      | some raw =>
        by_cases he : raw.isEmpty = true
        · simp [he]
        · simp [he]
  · rw [if_neg hc, if_neg hc]

theorem pmFoldl_fst (today : ℤ) :
    ∀ (cs : List (String × Connector)) (st : List (String × Table) × List String),
      (cs.foldl (pmStep today) st).1 = cs.foldl (pmStepD today) st.1 := by
  intro cs
  induction cs with
  | nil => intro st; rfl
  | cons p rest ih =>
    intro st
    rw [List.foldl_cons, List.foldl_cons, ih (pmStep today st p), pmStep_fst]

theorem pmStep_snd (today : ℤ) (st : List (String × Table) × List String)
    (p : String × Connector) : ∃ w0 : List String, (pmStep today st p).2 = st.2 ++ w0 := by
  unfold pmStep
  by_cases hc : p.2.connected = true
  · rw [if_pos hc]
    cases hf : p.2.fetch with
    | error e => exact ⟨["Error al procesar datos de " ++ p.1 ++ ": " ++ e], rfl⟩
    | ok o =>
      cases o with
      | none => exact ⟨[], by simp⟩
      | some raw =>
        by_cases he : raw.isEmpty = true
        · exact ⟨[], by simp [he]⟩
        · exact ⟨[], by simp [he]⟩
  · rw [if_neg hc]
    exact ⟨[], by simp⟩

theorem pmFoldl_snd_extends (today : ℤ) :
    ∀ (cs : List (String × Connector)) (st : List (String × Table) × List String),
      ∃ ws : List String, (cs.foldl (pmStep today) st).2 = st.2 ++ ws := by
  intro cs
  induction cs with
  | nil => intro st; exact ⟨[], by simp⟩
  | cons p rest ih =>
    intro st
    rw [List.foldl_cons]
    rcases ih (pmStep today st p) with ⟨ws, hws⟩
    rcases pmStep_snd today st p with ⟨w0, hw0⟩
    exact ⟨w0 ++ ws, by rw [hws, hw0, List.append_assoc]⟩

/-! ### Row-wise access -/

theorem getD_zipWith (f : ℚ → ℚ → ℚ) :
    ∀ (l1 l2 : List ℚ) (i : ℕ), i < l1.length → i < l2.length →
      (List.zipWith f l1 l2).getD i 0 = f (l1.getD i 0) (l2.getD i 0) := by
  intro l1
  induction l1 with
  | nil => intro l2 i h1 _; cases h1
  | cons a as ih =>
    intro l2 i h1 h2
    cases l2 with
    | nil => cases h2
    | cons b bs =>
      cases i with
      | zero => rfl
      | succ j =>
        simp only [List.zipWith_cons_cons, List.getD_cons_succ]
        exact ih bs j (Nat.lt_of_succ_lt_succ h1) (Nat.lt_of_succ_lt_succ h2)

/-! ## Claim theorems -/

/-- C1: for every set of normalized tables, each overview ratio
(`overall_roas`, `overall_ctr`, `overall_conversion_rate`) is exactly 0
whenever its denominator, summed across all sources, is 0.  The model is a
total function, so the aggregation never raises, and the guarded divisions
are only evaluated on strictly positive denominators, so no NaN/infinity
can arise for these three fields. -/
theorem c1_overview_zero_denominators (ps : List (String × Table)) :
    (totalMetric ps "spend" = 0 → (combineMetrics ps).overview.overall_roas = 0)
    ∧ (totalMetric ps "impressions" = 0 → (combineMetrics ps).overview.overall_ctr = 0)
    ∧ (totalMetric ps "clicks" = 0 →
        (combineMetrics ps).overview.overall_conversion_rate = 0) := by
  refine ⟨fun h => ?_, fun h => ?_, fun h => ?_⟩
  · show (if 0 < totalMetric ps "spend" then
      pyRound (totalMetric ps "revenue" / totalMetric ps "spend") 2 else 0) = 0
    rw [h]
    simp
  · show (if 0 < totalMetric ps "impressions" then
      pyRound (totalMetric ps "clicks" / totalMetric ps "impressions" * 100) 2 else 0) = 0
    rw [h]
    simp
  · show (if 0 < totalMetric ps "clicks" then
      pyRound (totalMetric ps "conversions" / totalMetric ps "clicks" * 100) 2 else 0) = 0
    rw [h]
    simp

attribute [local semireducible] Rat.add Rat.mul Rat.sub Rat.inv in
/-- Witness for C1 at a concrete input whose spend, impressions and clicks
columns all sum to 0. -/
theorem c1_witness :
    (combineMetrics exZeroDenoms).overview.overall_roas = 0
    ∧ (combineMetrics exZeroDenoms).overview.overall_ctr = 0
    ∧ (combineMetrics exZeroDenoms).overview.overall_conversion_rate = 0 :=
  ⟨(c1_overview_zero_denominators exZeroDenoms).1 (by decide),
   (c1_overview_zero_denominators exZeroDenoms).2.1 (by decide),
   (c1_overview_zero_denominators exZeroDenoms).2.2 (by decide)⟩

attribute [local semireducible] Rat.add Rat.mul Rat.sub Rat.inv in
/-- C4: each derived channel metric (`roas`, `ctr`, `cpc`), as carried
into the channel-performance entries via `channel_metrics.get(key, 0)`,
equals its ratio (rounded to two decimals) exactly when both operand
columns exist and the summed denominator is strictly positive, and is the
default 0 otherwise; in particular a table with a `spend` column but no
`revenue` column yields `roas = 0` with no exception. -/
theorem c4_derived_metric_defaults (t : Table) (s : String) :
    ((calculateChannelMetrics t s).roas.getD 0 =
      if t.hasCol "spend" && t.hasCol "revenue" && decide (0 < colSum t "spend") then
        pyRound (colSum t "revenue" / colSum t "spend") 2
      else 0)
    ∧ ((calculateChannelMetrics t s).ctr.getD 0 =
      if t.hasCol "clicks" && t.hasCol "impressions" && decide (0 < colSum t "impressions") then
        pyRound (colSum t "clicks" / colSum t "impressions" * 100) 2
      else 0)
    ∧ ((calculateChannelMetrics t s).cpc.getD 0 =
      if t.hasCol "spend" && t.hasCol "clicks" && decide (0 < colSum t "clicks") then
        pyRound (colSum t "spend" / colSum t "clicks") 2
      else 0)
    ∧ (calculateChannelMetrics exSpendOnly "x").roas.getD 0 = 0 := by
  refine ⟨?_, ?_, ?_, by decide⟩
  · by_cases h1 : t.hasCol "spend" = true <;> by_cases h2 : t.hasCol "revenue" = true <;>
      by_cases h3 : 0 < colSum t "spend" <;>
      simp [calculateChannelMetrics, h1, h2, h3]
  · by_cases h1 : t.hasCol "clicks" = true <;> by_cases h2 : t.hasCol "impressions" = true <;>
      by_cases h3 : 0 < colSum t "impressions" <;>
      simp [calculateChannelMetrics, h1, h2, h3]
  · by_cases h1 : t.hasCol "spend" = true <;> by_cases h2 : t.hasCol "clicks" = true <;>
      by_cases h3 : 0 < colSum t "clicks" <;>
      simp [calculateChannelMetrics, h1, h2, h3]

/-- C6: the per-channel revenue trend exists only when the table has more
than 7 rows; given more than 7 rows and a revenue column, it is the
percentage change (reported at one-decimal precision) of the second half's
mean over the first half's mean, split by index order at `len // 2`, and
it is 0 when the first-half mean is 0. -/
theorem c6_channel_revenue_trend (t : Table) (s : String) :
    ((calculateChannelMetrics t s).revenue_trend.isSome = true → 7 < t.nrows)
    ∧ (7 < t.nrows → t.hasCol "revenue" = true →
        (0 < firstHalfMean t →
          (calculateChannelMetrics t s).revenue_trend =
            some (pyRound ((secondHalfMean t - firstHalfMean t) / firstHalfMean t * 100) 1))
        ∧ (firstHalfMean t = 0 →
          (calculateChannelMetrics t s).revenue_trend = some 0)) := by
  constructor
  · intro h
    by_cases h7 : 7 < t.nrows
    · exact h7
    · have hnone : (calculateChannelMetrics t s).revenue_trend = none := by
        simp [calculateChannelMetrics, h7]
      rw [hnone] at h
      cases h
  · intro h7 hrev
    constructor
    · intro hpos
      simp [calculateChannelMetrics, h7, hrev, hpos]
    · intro hz
      simp [calculateChannelMetrics, h7, hrev, hz]

attribute [local semireducible] Rat.add Rat.mul Rat.sub Rat.inv in
/-- Witness for C6 at the spec scenario: 14 days of revenue
`[10]*7 ++ [20]*7` yield `revenue_trend = 100.0`. -/
theorem c6_witness : (calculateChannelMetrics exRev14 "shopify").revenue_trend = some 100 := by
  have h := ((c6_channel_revenue_trend exRev14 "shopify").2 (by decide) (by decide)).1 (by decide)
  exact h.trans (by decide)

/-- C9: when, after the e-commerce column mapping, `aov` is absent and
`revenue` and `orders` are both present, the normalizer backfills `aov`
as the row-wise quotient `revenue / orders`; on every row where the order
count is nonzero the backfilled value equals `revenue / orders` for that
row. -/
theorem c9_aov_backfill (t : Table)
    (h1 : (applyColumnMapping t ecomMapping).hasCol "aov" = false)
    (h2 : (applyColumnMapping t ecomMapping).hasCol "revenue" = true)
    (h3 : (applyColumnMapping t ecomMapping).hasCol "orders" = true) :
    (standardizeEcommerceData t).col "aov" =
      some (List.zipWith (fun a b => a / b)
        (((applyColumnMapping t ecomMapping).col "revenue").getD [])
        (((applyColumnMapping t ecomMapping).col "orders").getD []))
    ∧ ∀ i : ℕ,
        i < (((applyColumnMapping t ecomMapping).col "revenue").getD []).length →
        i < (((applyColumnMapping t ecomMapping).col "orders").getD []).length →
        (((applyColumnMapping t ecomMapping).col "orders").getD []).getD i 0 ≠ 0 →
        (((standardizeEcommerceData t).col "aov").getD []).getD i 0 =
          (((applyColumnMapping t ecomMapping).col "revenue").getD []).getD i 0 /
          (((applyColumnMapping t ecomMapping).col "orders").getD []).getD i 0 := by
  have hcond : (!(applyColumnMapping t ecomMapping).hasCol "aov"
      && (applyColumnMapping t ecomMapping).hasCol "revenue"
      && (applyColumnMapping t ecomMapping).hasCol "orders") = true := by
    rw [h1, h2, h3]
    rfl
  have hmain : (standardizeEcommerceData t).col "aov" =
      some (List.zipWith (fun a b => a / b)
        (((applyColumnMapping t ecomMapping).col "revenue").getD [])
        (((applyColumnMapping t ecomMapping).col "orders").getD [])) := by
    show (if (!(applyColumnMapping t ecomMapping).hasCol "aov"
        && (applyColumnMapping t ecomMapping).hasCol "revenue"
        && (applyColumnMapping t ecomMapping).hasCol "orders") = true then
      (applyColumnMapping t ecomMapping).setCol "aov" true
        (List.zipWith (fun a b => a / b)
          (((applyColumnMapping t ecomMapping).col "revenue").getD [])
          (((applyColumnMapping t ecomMapping).col "orders").getD []))
      else applyColumnMapping t ecomMapping).col "aov" = _
    rw [if_pos hcond]
    exact col_setCol_self (applyColumnMapping t ecomMapping) "aov" true _
  refine ⟨hmain, fun i hi1 hi2 _ => ?_⟩
  rw [hmain]
  simp only [Option.getD_some]
  exact getD_zipWith (fun a b => a / b) _ _ i hi1 hi2

attribute [local semireducible] Rat.add Rat.mul Rat.sub Rat.inv in
/-- Witness for C9: table with `sales` 10 and `orders` 2 on row 0 yields
a backfilled `aov` of 5 there. -/
theorem c9_witness :
    (((standardizeEcommerceData exEcom).col "aov").getD []).getD 0 0 = 5 := by
  have h := (c9_aov_backfill exEcom (by decide) (by decide) (by decide)).2 0
    (by decide) (by decide) (by decide)
  exact h.trans (by decide)

attribute [local semireducible] Rat.add Rat.mul Rat.sub Rat.inv in
/-- C10: every numeric overview field is post-processed — money totals are
rounded to two decimals (so they sit within 1/200 of the raw column sums,
and can differ from them, as the existential conjunct shows on a concrete
input), count totals are truncated to integers via `int()`, and the three
ratios are computed from the un-rounded sums and then rounded to two
decimals. -/
theorem c10_overview_postprocessing :
    (∀ ps : List (String × Table),
      |(overviewOf ps).total_spend - totalMetric ps "spend"| ≤ 1 / 200
      ∧ |(overviewOf ps).total_revenue - totalMetric ps "revenue"| ≤ 1 / 200
      ∧ (overviewOf ps).total_conversions = ratTrunc (totalMetric ps "conversions")
      ∧ (overviewOf ps).total_impressions = ratTrunc (totalMetric ps "impressions")
      ∧ (overviewOf ps).total_clicks = ratTrunc (totalMetric ps "clicks")
      ∧ (0 < totalMetric ps "spend" →
          (overviewOf ps).overall_roas =
            pyRound (totalMetric ps "revenue" / totalMetric ps "spend") 2)
      ∧ (0 < totalMetric ps "impressions" →
          (overviewOf ps).overall_ctr =
            pyRound (totalMetric ps "clicks" / totalMetric ps "impressions" * 100) 2)
      ∧ (0 < totalMetric ps "clicks" →
          (overviewOf ps).overall_conversion_rate =
            pyRound (totalMetric ps "conversions" / totalMetric ps "clicks" * 100) 2))
    ∧ ∃ ps : List (String × Table), (overviewOf ps).total_spend ≠ totalMetric ps "spend" := by
  constructor
  · intro ps
    refine ⟨abs_pyRound_two_sub _, abs_pyRound_two_sub _, rfl, rfl, rfl,
      fun h => ?_, fun h => ?_, fun h => ?_⟩
    · show (if 0 < totalMetric ps "spend" then
        pyRound (totalMetric ps "revenue" / totalMetric ps "spend") 2 else 0) = _
      rw [if_pos h]
    · show (if 0 < totalMetric ps "impressions" then
        pyRound (totalMetric ps "clicks" / totalMetric ps "impressions" * 100) 2 else 0) = _
      rw [if_pos h]
    · show (if 0 < totalMetric ps "clicks" then
        pyRound (totalMetric ps "conversions" / totalMetric ps "clicks" * 100) 2 else 0) = _
      rw [if_pos h]
  · exact ⟨exHalfCent, by decide⟩

attribute [local semireducible] Rat.add Rat.mul Rat.sub Rat.inv in
/-- Witness for C10 at a concrete input with positive denominators. -/
theorem c10_witness :
    (overviewOf exPositive).overall_roas =
      pyRound (totalMetric exPositive "revenue" / totalMetric exPositive "spend") 2
    ∧ (overviewOf exPositive).overall_ctr =
      pyRound (totalMetric exPositive "clicks" / totalMetric exPositive "impressions" * 100) 2
    ∧ (overviewOf exPositive).overall_conversion_rate =
      pyRound (totalMetric exPositive "conversions" / totalMetric exPositive "clicks" * 100) 2 :=
  ⟨(c10_overview_postprocessing.1 exPositive).2.2.2.2.2.1 (by decide),
   (c10_overview_postprocessing.1 exPositive).2.2.2.2.2.2.1 (by decide),
   (c10_overview_postprocessing.1 exPositive).2.2.2.2.2.2.2 (by decide)⟩

/-! ### Date-column preservation through the per-source standardizers -/

theorem ecom_preserves_date (t : Table) :
    (standardizeEcommerceData t).col "date" = t.col "date" := by
  simp only [standardizeEcommerceData]
  split_ifs with hcnd
  · rw [col_setCol_ne _ _ _ _ _ (by decide)]
    exact acmFold_col_not_mem t ecomMapping t "date" (by decide)
  · exact acmFold_col_not_mem t ecomMapping t "date" (by decide)

theorem email_preserves_date (t : Table) :
    (standardizeEmailData t).col "date" = t.col "date" := by
  simp only [standardizeEmailData]
  have hor := col_setCol_ne (applyColumnMapping t emailMapping) "open_rate"
  have hacm : (applyColumnMapping t emailMapping).col "date" = t.col "date" :=
    acmFold_col_not_mem t emailMapping t "date" (by decide)
  split_ifs with h1 h2 h3 <;>
    first
      | rw [col_setCol_ne _ _ _ _ _ (show ("date" : String) ≠ "click_rate" by decide),
          col_setCol_ne _ _ _ _ _ (show ("date" : String) ≠ "open_rate" by decide), hacm]
      | rw [col_setCol_ne _ _ _ _ _ (show ("date" : String) ≠ "click_rate" by decide), hacm]
      | rw [col_setCol_ne _ _ _ _ _ (show ("date" : String) ≠ "open_rate" by decide), hacm]
      | exact hacm

theorem csv_preserves_date (t : Table) :
    (standardizeCsvData t).col "date" = t.col "date" :=
  csvFold_col_not_mem (numericNames t) csvMetrics t "date" (by decide)

theorem dispatch_preserves_date (src : String) (t : Table) :
    (dispatchStandardize src t).col "date" = t.col "date" := by
  unfold dispatchStandardize
  split_ifs with h1 h2 h3 h4 h5
  · exact acmFold_col_not_mem t adsMapping t "date" (by decide)
  · exact ecom_preserves_date t
  · exact email_preserves_date t
  · exact acmFold_col_not_mem t analyticsMapping t "date" (by decide)
  · exact csv_preserves_date t
  · rfl

/-- C8: when no column name contains any date-like synonym (`date`,
`fecha`, `time`), the normalizer synthesizes a daily date sequence ending
at the current date whose length is the row count, instead of raising. -/
theorem c8_synthesized_dates (t : Table) (src : String) (today : ℤ)
    (h : ∀ c ∈ t.cols, strContains (lowerStr c.name) "date" = false
      ∧ strContains (lowerStr c.name) "fecha" = false
      ∧ strContains (lowerStr c.name) "time" = false) :
    (standardizeDataFormat t src today).col "date" = some (synthDates today t.nrows)
    ∧ (synthDates today t.nrows).length = t.nrows := by
  have hnd : t.hasCol "date" = false := by
    cases hcase : t.cols.any (fun c => c.name == "date") with
    | false => exact hcase
    | true =>
      exfalso
      rcases List.any_eq_true.mp hcase with ⟨c, hc, hbeq⟩
      have hname : c.name = "date" := by simpa using hbeq
      have hfalse := (h c hc).1
      rw [hname] at hfalse
      exact absurd hfalse (by decide)
  have hfind : t.cols.find? (fun c =>
      strContains (lowerStr c.name) "date" || strContains (lowerStr c.name) "fecha") = none := by
    apply List.find?_eq_none.mpr
    intro c hc
    simp [(h c hc).1, (h c hc).2.1]
  have hens : ensureDate t today = t.setCol "date" false (synthDates today t.nrows) := by
    simp [ensureDate, hnd, hfind]
  have hdate1 : (ensureDate t today).col "date" = some (synthDates today t.nrows) := by
    rw [hens]
    exact col_setCol_self _ _ _ _
  constructor
  · show (((dispatchStandardize src (ensureDate t today)).setCol "source" false
        (List.replicate (dispatchStandardize src (ensureDate t today)).nrows 0)).setCol
        "processed_at" false
        (List.replicate (dispatchStandardize src (ensureDate t today)).nrows 0)).col "date" =
      some (synthDates today t.nrows)
    rw [col_setCol_ne _ _ _ _ _ (by decide), col_setCol_ne _ _ _ _ _ (by decide),
      dispatch_preserves_date, hdate1]
  · unfold synthDates
    rw [List.length_map, List.length_range]

attribute [local semireducible] Rat.add Rat.mul Rat.sub Rat.inv in
/-- Witness for C8: a table whose only column is `sales` gets a
synthesized two-day date range ending today. -/
theorem c8_witness :
    (standardizeDataFormat exNoDate "shopify" 5).col "date" = some (synthDates 5 2)
    ∧ (synthDates 5 2).length = 2 :=
  c8_synthesized_dates exNoDate "shopify" 5 (by decide)

/-- C2: a source raising during its fetch/standardization is skipped with
a warning surfaced in the collected warning list, and the processed data —
hence the combined overview, channel metrics and ranking — is identical to
what aggregating the remaining (healthy) sources alone produces. -/
theorem c2_per_source_isolation (pre post : List (String × Connector)) (nm msg : String)
    (c : Connector) (today : ℤ) (hc : c.connected = true) (hf : c.fetch = .error msg) :
    processedOf (pre ++ (nm, c) :: post) today = processedOf (pre ++ post) today
    ∧ combineMetrics (processedOf (pre ++ (nm, c) :: post) today) =
        combineMetrics (processedOf (pre ++ post) today)
    ∧ ("Error al procesar datos de " ++ nm ++ ": " ++ msg) ∈
        (processMultiSource (pre ++ (nm, c) :: post) today).2 := by
  have hstepD : ∀ d : List (String × Table), pmStepD today d (nm, c) = d := by
    intro d
    simp [pmStepD, hc, hf]
  have hfst : processedOf (pre ++ (nm, c) :: post) today = processedOf (pre ++ post) today := by
    unfold processedOf processMultiSource
    rw [pmFoldl_fst, pmFoldl_fst, List.foldl_append, List.foldl_append, List.foldl_cons,
      hstepD]
  refine ⟨hfst, by rw [hfst], ?_⟩
  unfold processMultiSource
  rw [List.foldl_append, List.foldl_cons]
  rcases pmFoldl_snd_extends today post
    (pmStep today (pre.foldl (pmStep today) ([], [])) (nm, c)) with ⟨ws, hws⟩
  rw [hws]
  have hstep : (pmStep today (pre.foldl (pmStep today) ([], [])) (nm, c)).2 =
      (pre.foldl (pmStep today) ([], [])).2 ++
        ["Error al procesar datos de " ++ nm ++ ": " ++ msg] := by
    simp [pmStep, hc, hf]
  rw [hstep]
  simp

attribute [local semireducible] Rat.add Rat.mul Rat.sub Rat.inv in
/-- Witness for C2: a healthy connector plus a raising one; the combined
metrics coincide with the healthy connector alone, and the warning is
surfaced. -/
theorem c2_witness :
    combineMetrics (processedOf [("a", exConnGood), ("bad", exConnBad)] 0) =
      combineMetrics (processedOf [("a", exConnGood)] 0)
    ∧ ("Error al procesar datos de " ++ "bad" ++ ": " ++ "boom") ∈
        (processMultiSource [("a", exConnGood), ("bad", exConnBad)] 0).2 := by
  have h := c2_per_source_isolation [("a", exConnGood)] [] "bad" "boom" exConnBad 0 rfl rfl
  exact ⟨h.2.1, h.2.2⟩

/-- C5 (amended): for each of spend/revenue/conversions, the combined
week-over-week trend entry exists only when the daily-totals series has
more than 7 days; given more than one distinct day, the metric present,
and more than 7 days, the entry equals the percentage change of the
last-7-day mean over the previous-period mean (rounded to one decimal,
with the window `days[-14:-7]` when at least 14 days exist and `days[:-7]`
otherwise) when that previous mean is strictly positive — and is *omitted
entirely* (not 0) when the previous mean is 0 or negative. -/
theorem c5_weekly_trend_amended (ps : List (String × Table)) :
    (calculateTrends ps).spend_trend = trendFor ps "spend"
    ∧ (calculateTrends ps).revenue_trend = trendFor ps "revenue"
    ∧ (calculateTrends ps).conversions_trend = trendFor ps "conversions"
    ∧ ∀ m ∈ (["spend", "revenue", "conversions"] : List String),
        ((trendFor ps m).isSome = true → 7 < (dailyValues ps m).length)
        ∧ (metricPresent ps m = true → 7 < (dailyValues ps m).length →
            (0 < prevMean ps m →
              trendFor ps m = some
                { percentage :=
                    pyRound ((recentMean ps m - prevMean ps m) / prevMean ps m * 100) 1
                  direction :=
                    if 0 < (recentMean ps m - prevMean ps m) / prevMean ps m * 100 then "up"
                    else "down"
                  recent_avg := pyRound (recentMean ps m) 2
                  previous_avg := pyRound (prevMean ps m) 2 })
            ∧ (¬ 0 < prevMean ps m → trendFor ps m = none)) := by
  refine ⟨rfl, rfl, rfl, fun m _ => ⟨?_, fun hpres h7 => ?_⟩⟩
  · intro h
    by_cases h7 : 7 < (dailyValues ps m).length
    · exact h7
    · exfalso
      unfold trendFor at h
      rw [if_neg (fun hcon => h7 hcon.2.2)] at h
      cases h
  · have hd : 1 < (trendDates ps).length := by
      have hlen : (dailyValues ps m).length = (trendDates ps).length := List.length_map _ _
      omega
    constructor
    · intro hprev
      unfold trendFor
      rw [if_pos ⟨hd, hpres, h7⟩, if_pos hprev]
    · intro hprev
      unfold trendFor
      rw [if_pos ⟨hd, hpres, h7⟩, if_neg hprev]

attribute [local semireducible] Rat.add Rat.mul Rat.sub Rat.inv in
/-- Counterexample to C5 as stated: 8 data days whose previous-period
(single-day) mean is 0 — the claim says the trend value is then 0, but the
code omits the trend entry entirely. -/
theorem c5_counterexample :
    7 < (dailyValues [("a", exTrendZero)] "revenue").length
    ∧ prevMean [("a", exTrendZero)] "revenue" = 0
    ∧ (calculateTrends [("a", exTrendZero)]).revenue_trend = none :=
  ⟨by decide, by decide, by decide⟩

attribute [local semireducible] Rat.add Rat.mul Rat.sub Rat.inv in
/-- Witness for C5: 14 dated days of revenue `[10]*7 ++ [20]*7` produce a
revenue trend of +100% (recent mean 20 vs previous mean 10). -/
theorem c5_witness :
    (calculateTrends [("a", exTrend14)]).revenue_trend =
      some { percentage := 100, direction := "up", recent_avg := 20, previous_avg := 10 } := by
  have hm := (c5_weekly_trend_amended [("a", exTrend14)]).2.2.2 "revenue" (by decide)
  have h := (hm.2 (by decide) (by decide)).1 (by decide)
  rw [(c5_weekly_trend_amended [("a", exTrend14)]).2.1, h]
  decide


attribute [local semireducible] Rat.add Rat.mul Rat.sub Rat.inv in
/-- Counterexample to C3 as stated: with a single channel of zero spend,
the total spend across channels is 0 and the ranking entry carries *no*
`spend_percentage` at all (the key is never set), while the claim demands
the value 0 there. -/
theorem c3_counterexample :
    ((performanceOf [("a", exZeroSpend)]).channel_ranking.map (fun e => e.spend_percentage))
      = [none]
    ∧ (none : Option ℚ) ≠ some 0 :=
  ⟨by decide, by decide⟩

/-- C3 (amended): the channel ranking is sorted descending by `roas`;
*when the total spend across channels is strictly positive* every entry
carries `spend_percentage = spend / total × 100` rounded to one decimal,
and those percentages sum to 100 up to the rounding tolerance `n × 1/20`;
when the total spend is 0 (or negative) the entries carry no
`spend_percentage` at all; `best_channel` is the first ranking entry, and
`worst_channel` is the last entry exactly when at least 2 channels
exist. -/
theorem c3_ranking_amended (ps : List (String × Table))
    (hne : (performanceOf ps).channel_ranking ≠ []) :
    List.Chain' (fun a b => b.roas ≤ a.roas) (performanceOf ps).channel_ranking
    ∧ (0 < totalSpendOf ps →
        (∀ e ∈ (performanceOf ps).channel_ranking,
          e.spend_percentage = some (pyRound (e.spend / totalSpendOf ps * 100) 1))
        ∧ |((performanceOf ps).channel_ranking.map (fun e => e.spend_percentage.getD 0)).sum
            - 100| ≤ ((performanceOf ps).channel_ranking.length : ℚ) * (1 / 20))
    ∧ (¬ 0 < totalSpendOf ps →
        ∀ e ∈ (performanceOf ps).channel_ranking, e.spend_percentage = none)
    ∧ (performanceOf ps).best_channel = (performanceOf ps).channel_ranking.head?
    ∧ (performanceOf ps).worst_channel =
        (if 1 < (performanceOf ps).channel_ranking.length then
          (performanceOf ps).channel_ranking.getLast? else none) := by
  by_cases hb : (perfBase ps).isEmpty = true
  · exact absurd (by simp [performanceOf, hb]) hne
  · have hrank : (performanceOf ps).channel_ranking = annotateRanking ps := by
      simp [performanceOf, hb]
    have hbest : (performanceOf ps).best_channel = (annotateRanking ps).head? := by
      simp [performanceOf, hb]
    have hworst : (performanceOf ps).worst_channel =
        (if 1 < (annotateRanking ps).length then (annotateRanking ps).getLast? else none) := by
      simp [performanceOf, hb]
    rw [hrank, hbest, hworst]
    refine ⟨?_, fun h0 => ⟨?_, ?_⟩, fun h0 => ?_, rfl, rfl⟩
    · unfold annotateRanking
      split_ifs with h0
      · rw [List.chain'_map]
        exact chain'_sortByRoasDesc (perfBase ps)
      · exact chain'_sortByRoasDesc (perfBase ps)
    · intro e he
      unfold annotateRanking at he
      rw [if_pos h0] at he
      rcases List.mem_map.mp he with ⟨e0, _, rfl⟩
      rfl
    · have hann : annotateRanking ps = (rankedOf ps).map (withPct (totalSpendOf ps)) := by
        unfold annotateRanking
        rw [if_pos h0]
      have hsum : ((rankedOf ps).map (fun e => e.spend / totalSpendOf ps * 100)).sum = 100 := by
        have hne0 : totalSpendOf ps ≠ 0 := ne_of_gt h0
        have hpt : (rankedOf ps).map (fun e => e.spend / totalSpendOf ps * 100) =
            (rankedOf ps).map (fun e => e.spend * (100 / totalSpendOf ps)) := by
          apply List.map_congr_left
          intro e _
          field_simp
        rw [hpt, List.sum_map_mul_right]
        show ((rankedOf ps).map (fun e => e.spend)).sum * (100 / totalSpendOf ps) = 100
        rw [show ((rankedOf ps).map (fun e => e.spend)).sum = totalSpendOf ps from rfl]
        field_simp
      have hcomp : ((fun (e : PerfEntry) => e.spend_percentage.getD 0) ∘
          withPct (totalSpendOf ps)) =
          ((fun (x : ℚ) => pyRound x 1) ∘ (fun e => e.spend / totalSpendOf ps * 100)) := rfl
      rw [hann, List.map_map, List.length_map, hcomp, ← List.map_map]
      have hbound := abs_sum_map_pyRound_one
        ((rankedOf ps).map (fun e => e.spend / totalSpendOf ps * 100))
      rw [hsum, List.length_map] at hbound
      exact hbound
    · intro e he
      unfold annotateRanking at he
      rw [if_neg h0] at he
      have hmem := mem_sortByRoasDesc e (perfBase ps) he
      rcases List.mem_filterMap.mp hmem with ⟨p, _, hsome⟩
      by_cases hpe : p.2.isEmpty = true
      · rw [if_pos hpe] at hsome
        cases hsome
      · rw [if_neg hpe] at hsome
        rw [← Option.some_inj.mp hsome]
        rfl

attribute [local semireducible] Rat.add Rat.mul Rat.sub Rat.inv in
/-- Witness for C3 at the spec scenario (channel A: spend 100 revenue 400,
channel B: spend 50 revenue 50). -/
theorem c3_witness :
    List.Chain' (fun a b => b.roas ≤ a.roas)
      (performanceOf [("a", exChanA), ("b", exChanB)]).channel_ranking
    ∧ (0 < totalSpendOf [("a", exChanA), ("b", exChanB)] →
        (∀ e ∈ (performanceOf [("a", exChanA), ("b", exChanB)]).channel_ranking,
          e.spend_percentage =
            some (pyRound (e.spend / totalSpendOf [("a", exChanA), ("b", exChanB)] * 100) 1))
        ∧ |((performanceOf [("a", exChanA), ("b", exChanB)]).channel_ranking.map
              (fun e => e.spend_percentage.getD 0)).sum - 100|
            ≤ ((performanceOf [("a", exChanA), ("b", exChanB)]).channel_ranking.length : ℚ)
              * (1 / 20))
    ∧ (¬ 0 < totalSpendOf [("a", exChanA), ("b", exChanB)] →
        ∀ e ∈ (performanceOf [("a", exChanA), ("b", exChanB)]).channel_ranking,
          e.spend_percentage = none)
    ∧ (performanceOf [("a", exChanA), ("b", exChanB)]).best_channel =
        (performanceOf [("a", exChanA), ("b", exChanB)]).channel_ranking.head?
    ∧ (performanceOf [("a", exChanA), ("b", exChanB)]).worst_channel =
        (if 1 < (performanceOf [("a", exChanA), ("b", exChanB)]).channel_ranking.length then
          (performanceOf [("a", exChanA), ("b", exChanB)]).channel_ranking.getLast?
        else none) :=
  c3_ranking_amended [("a", exChanA), ("b", exChanB)] (by decide)

/-- Counterexample to C7 as stated: on the csv path, the first
pattern-matching column `total_note` (which contains the `total` pattern
of the `revenue` metric, values `[1]`) is skipped because it is not
numeric, and the later numeric match `sales` (values `[5]`) wins — so it
is not true that the first matching column wins. -/
theorem c7_counterexample :
    (standardizeCsvData exCsvSkip).col "revenue" = some [5] ∧ (5 : ℚ) ≠ 1 :=
  ⟨by decide, by decide⟩

/-- C7 (amended): on the exact-match paths, for any mapping table with
distinct canonical fields and a table with distinct column names, the
mapped field takes the values of the *first* column (in table order) whose
lowercased name equals (case-insensitively, exactly — not by substring)
one of the accepted synonyms, and is untouched when no column matches; on
the generic-upload (csv) path, matching is by substring containment but
*restricted to the columns detected as numeric*: the first matching
numeric column wins.  In both cases later synonyms are irrelevant once a
column matches. -/
theorem c7_column_matching_amended :
    (∀ (t : Table) (m : List (String × List String)) (f : String) (syns : List String),
      (f, syns) ∈ m → (m.map Prod.fst).Nodup → (t.cols.map Col.name).Nodup →
      (applyColumnMapping t m).col f = specFirstMatchExact t f syns)
    ∧ (∀ (t : Table) (f : String) (pats : List String),
      (f, pats) ∈ csvMetrics → (standardizeCsvData t).col f = csvLookup t f pats) := by
  constructor
  · exact applyColumnMapping_col
  · intro t f pats hmem
    have hcross : ∀ gp ∈ csvMetrics, ∀ fp ∈ csvMetrics, gp.1 ≠ fp.1 →
        ∀ p ∈ fp.2, strContains (lowerStr gp.1) p = false := by decide
    have hother : ∀ mp ∈ csvMetrics, mp.1 ≠ f → ∀ c : Col, c.name = mp.1 →
        csvPred (numericNames t) pats c = false := by
      intro mp hmp hne c hc
      have hany : (pats.any fun p => strContains (lowerStr c.name) p) = false := by
        rw [List.any_eq_false]
        intro p hp
        have hcc := hcross mp hmp (f, pats) hmem hne p hp
        rw [hc, hcc]
        simp
      unfold csvPred
      rw [hany, Bool.false_and]
    exact csvFold_col_eq (numericNames t) csvMetrics t f pats hmem (by decide) hother

attribute [local semireducible] Rat.add Rat.mul Rat.sub Rat.inv in
/-- Witness for C7: an ads table whose only column is `Cost` (matched
case-insensitively by the `spend` synonyms), and the csv table of the
counterexample. -/
theorem c7_witness :
    (applyColumnMapping exAdsCost adsMapping).col "spend" =
      specFirstMatchExact exAdsCost "spend" ["spend", "cost", "gasto"]
    ∧ (standardizeCsvData exCsvSkip).col "revenue" =
      csvLookup exCsvSkip "revenue" ["revenue", "sales", "ventas", "ingresos", "total"] :=
  ⟨c7_column_matching_amended.1 exAdsCost adsMapping "spend" ["spend", "cost", "gasto"]
    (by decide) (by decide) (by decide),
   c7_column_matching_amended.2 exCsvSkip "revenue"
    ["revenue", "sales", "ventas", "ingresos", "total"] (by decide)⟩
